import Mathlib

/-!
Shallow embedding of the kanjitest view-state engine (src/src/main.rs).

The program is a terminal flashcard viewer: it splits a text file into a
"prompt" side and a "detail" side, and maintains a scroll / visibility /
layout state driven by key and mouse events.  All state fields of the Rust
program are `u16` or `bool`; we model `u16` values as `Nat` together with
explicit wrapping arithmetic modulo 2^16 where the Rust code can overflow
(release-profile two's-complement wrapping semantics).
-/

namespace Kanjitest

/-- Modulus of the `u16` machine integers used by the program. -/
def U16MOD : Nat := 65536

/-- Wrapping `u16` addition, as in `self.scroll + amount` / `self.space += 5`. -/
def wadd (a b : Nat) : Nat := (a + b) % U16MOD

/-- Wrapping `u16` subtraction, as in `self.length - 1` / `self.space -= 5`
(for `a b < U16MOD` this is two's-complement wrapping subtraction). -/
def wsub (a b : Nat) : Nat := (a + (U16MOD - b % U16MOD)) % U16MOD

/-- `const SPACE_CHANGE_AMOUT: u16 = 5;` (sic, name kept from the source). -/
def SPACE_CHANGE_AMOUT : Nat := 5

/-- `const DEFALUT_SPACE: u16 = 40;` (sic, name kept from the source). -/
def DEFALUT_SPACE : Nat := 40

/-- `const MOUSE_SCROLL_AMOUNT: u16 = 5;` -/
def MOUSE_SCROLL_AMOUNT : Nat := 5

/-- `const KEYBOARD_SCROLL_AMOUT: u16 = 1;` (sic, name kept from the source). -/
def KEYBOARD_SCROLL_AMOUT : Nat := 1

/-! ## Line splitting (`content.lines()` and `Program::update_file`) -/

/-- Split a character list at every `'\n'`; the separators are dropped and
the (possibly empty) pieces kept, as `str::split('\n')` does.  Always
returns at least one piece. -/
def splitNl : List Char → List (List Char)
  | [] => [[]]
  | c :: cs =>
    if c = '\n' then [] :: splitNl cs
    else
      match splitNl cs with
      | [] => [[c]]
      | p :: ps => (c :: p) :: ps

/-- Strip one trailing carriage return, as Rust's `str::lines` does for a
line that was terminated by `"\r\n"`. -/
def stripCR (l : String) : String :=
  if l.data.getLast? = some '\r' then String.mk l.data.dropLast else l

/-- Rust's `str::lines`: split at `'\n'`; a piece that was terminated by a
newline also loses one trailing `'\r'`; a trailing newline produces no final
empty line; the final piece, when not newline-terminated, is kept verbatim. -/
def rustLines (s : String) : List String :=
  let parts := (splitNl s.data).map String.mk
  match parts.getLast? with
  | none => []
  | some last =>
    if last = "" then parts.dropLast.map stripCR
    else parts.dropLast.map stripCR ++ [last]

/-- The left-side (prompt) keep predicate of `update_file`:
`line.contains(':') || line == "-"` (character containment is tested on the
line's character list). -/
def leftKeep (l : String) : Bool := l.data.contains ':' || l == "-"

/-- The right-side (detail) keep predicate of `update_file`:
`!line.contains(':') && line != "-"`. -/
def rightKeep (l : String) : Bool := !(l.data.contains ':') && l != "-"

/-- The accumulation loop of `update_file`: for each line push it iff `keep`
holds, then always push `'\n'`. -/
def buildSide (keep : String → Bool) (content : String) : String :=
  (rustLines content).foldl
    (fun acc line => (if keep line then acc ++ line else acc) ++ "\n") ""

/-- `content.lines().count()` (before the `as u16` cast). -/
def lineCount (content : String) : Nat := (rustLines content).length

/-! ## Program state -/

/-- The `Program` struct of the source, field for field.  `u16` fields are
`Nat` (always kept below `U16MOD` by the wrapping operations). -/
structure Program where
  left_side : String
  right_side : String
  hidden : Bool
  reverse : Bool
  scroll : Nat
  space : Nat
  length : Nat
  leave : Bool
deriving Repr, DecidableEq

/-- The freshly initialised state built at the start of `Program::new`,
before `update_file` runs. -/
def initProgram : Program :=
  { left_side := ""
    right_side := ""
    hidden := false
    reverse := false
    scroll := 0
    space := DEFALUT_SPACE
    length := 0
    leave := false }

/-- Errors `update_file` can raise (`Error::OpenFile`, `Error::ReadFileContent`). -/
inductive UpdateError where
  | openFile
  | readFileContent
deriving Repr, DecidableEq

/-- `Program::update_file`.  The file read is the one effect the function
performs; we pass its outcome in as `io : Except UpdateError String` (the
decoded file content on success).  On failure the function returns before
any field of `self` is assigned; on success it replaces `left_side`,
`right_side` and `length` (the latter cast `as u16`). -/
def updateFile (p : Program) (io : Except UpdateError String) :
    Program × Except UpdateError Unit :=
  match io with
  | .error e => (p, .error e)
  | .ok content =>
    ({ p with
        left_side := buildSide leftKeep content
        right_side := buildSide rightKeep content
        length := lineCount content % U16MOD },
     .ok ())

/-! ## Scroll controller -/

/-- `Program::scroll_up`: saturating decrement by `amount`. -/
def scrollUp (p : Program) (amount : Nat) : Program :=
  if p.scroll ≥ amount then { p with scroll := p.scroll - amount }
  else { p with scroll := 0 }

/-- `Program::scroll_down`: `if self.scroll + amount > self.length
{ self.scroll = self.length - 1 } else { self.scroll += amount }`, with
`u16` wrapping on both the addition and the subtraction. -/
def scrollDown (p : Program) (amount : Nat) : Program :=
  if wadd p.scroll amount > p.length then { p with scroll := wsub p.length 1 }
  else { p with scroll := wadd p.scroll amount }

/-! ## Input events -/

/-- The key codes the program distinguishes (`crossterm::event::KeyCode`);
all unmatched codes collapse into `otherKey`. -/
inductive KeyCode where
  | char : Char → KeyCode
  | up
  | down
  | left
  | right
  | esc
  | otherKey
deriving Repr, DecidableEq

/-- `Program::key_input`, arm for arm in source order. -/
def keyInput (p : Program) (key : KeyCode) : Program :=
  match key with
  | .char ' ' => { p with hidden := !p.hidden }
  | .char 'k' => scrollUp p KEYBOARD_SCROLL_AMOUT
  | .up => scrollUp p KEYBOARD_SCROLL_AMOUT
  | .char 'j' => scrollDown p KEYBOARD_SCROLL_AMOUT
  | .down => scrollDown p KEYBOARD_SCROLL_AMOUT
  | .char 'l' => { p with space := wadd p.space SPACE_CHANGE_AMOUT }
  | .right => { p with space := wadd p.space SPACE_CHANGE_AMOUT }
  | .char 'h' => { p with space := wsub p.space SPACE_CHANGE_AMOUT }
  | .left => { p with space := wsub p.space SPACE_CHANGE_AMOUT }
  | .char 'r' => { p with reverse := !p.reverse }
  | .esc => { p with leave := true }
  | _ => p

/-- The mouse event kinds the program distinguishes. -/
inductive MouseKind where
  | scrollUp
  | scrollDown
  | otherMouse
deriving Repr, DecidableEq

/-- `Program::mouse_input`. -/
def mouseInput (p : Program) (ev : MouseKind) : Program :=
  match ev with
  | .scrollUp => scrollUp p MOUSE_SCROLL_AMOUNT
  | .scrollDown => scrollDown p MOUSE_SCROLL_AMOUNT
  | .otherMouse => p

/-- The events the run loop dispatches on (`crossterm::event::Event`). -/
inductive Event where
  | key : KeyCode → Event
  | mouse : MouseKind → Event
  | otherEvent
deriving Repr, DecidableEq

/-- One iteration body of the run loop's event dispatch. -/
def applyEvent (p : Program) (e : Event) : Program :=
  match e with
  | .key k => keyInput p k
  | .mouse m => mouseInput p m
  | .otherEvent => p

/-- `Program::run` over a finite stream of incoming events: while `leave` is
false, draw (no state effect) and process the next event; once `leave` holds
the loop exits without reading further events. -/
def runEvents : Program → List Event → Program
  | p, [] => p
  | p, e :: es => if p.leave then p else runEvents (applyEvent p e) es

/-! ## Rendering (`Program::draw`) -/

/-- What one call of `Program::draw` decides to render: the two layout
chunk widths, and for each side whether its paragraph widget is rendered. -/
structure RenderPlan where
  leftWidthPct : Nat
  rightWidthPct : Nat
  showLeft : Bool
  leftText : String
  showRight : Bool
  rightText : String
  scrollOffset : Nat
deriving Repr, DecidableEq

/-- `Program::draw`: the left chunk takes `space` percent, the right chunk
`100 - space`; the left paragraph is rendered iff `!reverse || !hidden`, the
right paragraph iff `reverse || !hidden`; both scroll by `scroll`. -/
def draw (p : Program) : RenderPlan :=
  { leftWidthPct := p.space
    rightWidthPct := wsub 100 p.space
    showLeft := !p.reverse || !p.hidden
    leftText := p.left_side
    showRight := p.reverse || !p.hidden
    rightText := p.right_side
    scrollOffset := p.scroll }

/-! ## Derived views of the splitter output, used to state the claims -/

/-- The per-line choice made for the prompt (left) side. -/
def promptLines (content : String) : List String :=
  (rustLines content).map (fun l => if leftKeep l then l else "")

/-- The per-line choice made for the detail (right) side. -/
def detailLines (content : String) : List String :=
  (rustLines content).map (fun l => if rightKeep l then l else "")

/-- A list of lines rendered with each line (the last included) followed by
a `'\n'` terminator. -/
def joinLines : List String → String
  | [] => ""
  | l :: ls => l ++ "\n" ++ joinLines ls

/-- A sequence of scroll-controller calls with caller-chosen amounts. -/
inductive ScrollCall where
  | up (amount : Nat)
  | down (amount : Nat)
deriving Repr, DecidableEq

/-- Apply a sequence of scroll calls in order. -/
def applyCalls : Program → List ScrollCall → Program
  | p, [] => p
  | p, .up a :: cs => applyCalls (scrollUp p a) cs
  | p, .down a :: cs => applyCalls (scrollDown p a) cs

/-! ## Helper lemmas -/

theorem rightKeep_eq_not_leftKeep (l : String) : rightKeep l = !leftKeep l := by
  simp [leftKeep, rightKeep, Bool.not_or, bne]

theorem foldl_side (keep : String → Bool) (ls : List String) (acc : String) :
    ls.foldl (fun a line => (if keep line then a ++ line else a) ++ "\n") acc
      = acc ++ joinLines (ls.map fun l => if keep l then l else "") := by
  induction ls generalizing acc with
  | nil => simp [joinLines, String.append_empty]
  | cons l ls ih =>
    simp only [List.foldl_cons, List.map_cons, joinLines, ih]
    by_cases h : keep l <;>
      simp [h, String.append_assoc, String.empty_append]

theorem buildSide_eq_joinLines (keep : String → Bool) (content : String) :
    buildSide keep content
      = joinLines ((rustLines content).map fun l => if keep l then l else "") := by
  have h := foldl_side keep (rustLines content) ""
  simpa [buildSide, String.empty_append] using h

theorem scrollUp_scroll_le (p : Program) (a : Nat) :
    (scrollUp p a).scroll ≤ p.scroll := by
  unfold scrollUp
  split <;> simp

theorem wsub_one_eq (n : Nat) (h1 : 1 ≤ n) (h2 : n < U16MOD) :
    wsub n 1 = n - 1 := by
  simp only [wsub, U16MOD] at h2 ⊢
  omega

theorem scrollDown_scroll_le (p : Program) (a : Nat)
    (h1 : 1 ≤ p.length) (h2 : p.length < U16MOD) :
    (scrollDown p a).scroll ≤ p.length := by
  unfold scrollDown
  split
  · simp [wsub_one_eq p.length h1 h2]
  · next h =>
    simp
    omega

theorem scrollDown_scroll_of_gt (p : Program) (a : Nat)
    (h : wadd p.scroll a > p.length) :
    (scrollDown p a).scroll = wsub p.length 1 := by
  unfold scrollDown
  rw [if_pos h]

theorem scrollDown_scroll_of_le (p : Program) (a : Nat)
    (h : ¬ wadd p.scroll a > p.length) :
    (scrollDown p a).scroll = wadd p.scroll a := by
  unfold scrollDown
  rw [if_neg h]

theorem scrollUp_length (p : Program) (a : Nat) :
    (scrollUp p a).length = p.length := by
  unfold scrollUp
  split <;> rfl

theorem scrollDown_length (p : Program) (a : Nat) :
    (scrollDown p a).length = p.length := by
  unfold scrollDown
  split <;> rfl

theorem scrollUp_leave (p : Program) (a : Nat) :
    (scrollUp p a).leave = p.leave := by
  unfold scrollUp
  split <;> rfl

theorem scrollDown_leave (p : Program) (a : Nat) :
    (scrollDown p a).leave = p.leave := by
  unfold scrollDown
  split <;> rfl

theorem keyInput_leave_mono (p : Program) (k : KeyCode) (h : p.leave = true) :
    (keyInput p k).leave = true := by
  unfold keyInput
  split <;> simp [scrollUp_leave, scrollDown_leave, h]

theorem mouseInput_leave_mono (p : Program) (m : MouseKind) (h : p.leave = true) :
    (mouseInput p m).leave = true := by
  cases m <;> simp [mouseInput, scrollUp_leave, scrollDown_leave, h]

theorem scroll_le_length_invariant (q : Program) (cs : List ScrollCall)
    (hq : q.scroll ≤ q.length) (hq1 : 1 ≤ q.length) (hq2 : q.length < U16MOD) :
    (applyCalls q cs).scroll ≤ q.length := by
  induction cs generalizing q with
  | nil => exact hq
  | cons c cs ih =>
    cases c with
    | up a =>
      have hlen : (scrollUp q a).length = q.length := scrollUp_length q a
      have hs : (scrollUp q a).scroll ≤ (scrollUp q a).length := by
        rw [hlen]
        exact le_trans (scrollUp_scroll_le q a) hq
      have := ih (scrollUp q a) hs (by rw [hlen]; exact hq1) (by rw [hlen]; exact hq2)
      rw [hlen] at this
      exact this
    | down a =>
      have hlen : (scrollDown q a).length = q.length := scrollDown_length q a
      have hs : (scrollDown q a).scroll ≤ (scrollDown q a).length := by
        rw [hlen]
        exact scrollDown_scroll_le q a hq1 hq2
      have := ih (scrollDown q a) hs (by rw [hlen]; exact hq1) (by rw [hlen]; exact hq2)
      rw [hlen] at this
      exact this

/-! ## Claim theorems -/

/-- **C1.** For every input text, the splitter classifies each line as a prompt
line iff it contains `':'` or equals exactly `"-"`; the prompt and detail sides
each have exactly one entry per input line, at every index exactly one of the
two holds the original line and the other an empty line, and both output
strings are the concatenation of their lines with every line (the last
included) followed by a newline terminator. -/
theorem splitter_partition (content : String) (i : Nat) (l : String)
    (hl : (rustLines content)[i]? = some l) :
    buildSide leftKeep content = joinLines (promptLines content)
    ∧ buildSide rightKeep content = joinLines (detailLines content)
    ∧ (promptLines content).length = lineCount content
    ∧ (detailLines content).length = lineCount content
    ∧ ((l.data.contains ':' || l == "-") = true →
        (promptLines content)[i]? = some l ∧ (detailLines content)[i]? = some "")
    ∧ ((l.data.contains ':' || l == "-") = false →
        (promptLines content)[i]? = some "" ∧ (detailLines content)[i]? = some l) := by
  refine ⟨buildSide_eq_joinLines leftKeep content,
          buildSide_eq_joinLines rightKeep content,
          by simp [promptLines, lineCount],
          by simp [detailLines, lineCount], ?_, ?_⟩
  · intro h
    have hk : leftKeep l = true := h
    constructor
    · simp [promptLines, List.getElem?_map, hl, hk]
    · simp [detailLines, List.getElem?_map, hl, rightKeep_eq_not_leftKeep, hk]
  · intro h
    have hk : leftKeep l = false := h
    constructor
    · simp [promptLines, List.getElem?_map, hl, hk]
    · simp [detailLines, List.getElem?_map, hl, rightKeep_eq_not_leftKeep, hk]

/-- Witness for C1 at the Scenario A input, index 0 (the line `"日:"`). -/
theorem splitter_partition_witness :
    ((rustLines "日:\n day, sun\n-\nニチ\n")[0]? = some "日:")
    ∧ (buildSide leftKeep "日:\n day, sun\n-\nニチ\n"
        = joinLines (promptLines "日:\n day, sun\n-\nニチ\n")
      ∧ buildSide rightKeep "日:\n day, sun\n-\nニチ\n"
        = joinLines (detailLines "日:\n day, sun\n-\nニチ\n")
      ∧ (promptLines "日:\n day, sun\n-\nニチ\n").length
        = lineCount "日:\n day, sun\n-\nニチ\n"
      ∧ (detailLines "日:\n day, sun\n-\nニチ\n").length
        = lineCount "日:\n day, sun\n-\nニチ\n"
      ∧ (((String.mk ['日', ':']).data.contains ':' || (String.mk ['日', ':']) == "-") = true →
          (promptLines "日:\n day, sun\n-\nニチ\n")[0]? = some "日:"
          ∧ (detailLines "日:\n day, sun\n-\nニチ\n")[0]? = some "")
      ∧ (((String.mk ['日', ':']).data.contains ':' || (String.mk ['日', ':']) == "-") = false →
          (promptLines "日:\n day, sun\n-\nニチ\n")[0]? = some ""
          ∧ (detailLines "日:\n day, sun\n-\nニチ\n")[0]? = some "日:")) :=
  ⟨by decide, splitter_partition "日:\n day, sun\n-\nニチ\n" 0 "日:" (by decide)⟩

/-- **C2** (code evaluated at the failing input): with `line_count = 0`, a
`scroll_down(1)` takes the clamp branch and computes `0 - 1` in `u16`; with
wrapping semantics `scroll` becomes 65535, not the 0 the claim requires (in a
debug build the same subtraction panics). -/
theorem scrollDown_empty_underflows :
    (scrollDown initProgram 1).scroll = 65535
    ∧ (scrollDown initProgram 1).scroll ≠ 0 := by decide

/-- **C3** (amended): for every state with `scroll_offset = 0` and
`0 < line_count < 2^16`, any finite sequence of scroll calls with arbitrary
amounts keeps `scroll_offset` within `[0, line_count]` after every call; the
bound `line_count - 1` of the original claim is exceeded (by exactly one) when
a `scroll_down` lands exactly on `line_count`. -/
theorem scroll_sequence_bounded (p : Program) (cs : List ScrollCall)
    (h0 : p.scroll = 0) (h1 : 1 ≤ p.length) (h2 : p.length < U16MOD) :
    (applyCalls p cs).scroll ≤ p.length ∧ 0 ≤ (applyCalls p cs).scroll :=
  ⟨scroll_le_length_invariant p cs (by omega) h1 h2, Nat.zero_le _⟩

/-- Counterexample to C3 as stated: with `line_count = 3`, the single call
`scroll_down(3)` from `scroll_offset = 0` leaves `scroll_offset = 3`, which
exceeds `line_count - 1 = 2`. -/
theorem scroll_sequence_bounded_cex :
    (applyCalls { initProgram with length := 3 } [ScrollCall.down 3]).scroll = 3
    ∧ ¬((applyCalls { initProgram with length := 3 } [ScrollCall.down 3]).scroll
          ≤ ({ initProgram with length := 3 } : Program).length - 1) := by decide

/-- Witness for C3 (amended) at `line_count = 3` and the call sequence
`[down 5, up 1]`. -/
theorem scroll_sequence_bounded_witness :
    (applyCalls { initProgram with length := 3 }
        [ScrollCall.down 5, ScrollCall.up 1]).scroll
      ≤ ({ initProgram with length := 3 } : Program).length
    ∧ 0 ≤ (applyCalls { initProgram with length := 3 }
        [ScrollCall.down 5, ScrollCall.up 1]).scroll :=
  scroll_sequence_bounded { initProgram with length := 3 }
    [ScrollCall.down 5, ScrollCall.up 1] (by decide) (by decide) (by decide)

/-- **C4** (code evaluated at the failing input): thirteen presses of the `l`
key starting from the default `space_ratio = 40` drive `space` to 105, outside
`[0, 100]`; the code applies no clamp (and nine `h` presses similarly underflow
below 0: panic in debug, wrap to 65531 with wrapping semantics). -/
theorem space_exceeds_bounds :
    ((List.replicate 13 (KeyCode.char 'l')).foldl keyInput initProgram).space = 105
    ∧ ¬(((List.replicate 13 (KeyCode.char 'l')).foldl keyInput initProgram).space
          ≤ 100) := by decide

/-- **C5.** When `hidden` is false the draw renders both panes; when `hidden`
is true it renders exactly one; and toggling `reverse` (the `r` key) while
hidden switches which pane is rendered. -/
theorem hidden_reverse_panes (p : Program) :
    (p.hidden = false → (draw p).showLeft = true ∧ (draw p).showRight = true)
    ∧ (p.hidden = true →
        ((draw p).showLeft = true ∧ (draw p).showRight = false)
        ∨ ((draw p).showLeft = false ∧ (draw p).showRight = true))
    ∧ (p.hidden = true →
        (draw (keyInput p (KeyCode.char 'r'))).showLeft = !(draw p).showLeft
        ∧ (draw (keyInput p (KeyCode.char 'r'))).showRight
            = !(draw p).showRight) := by
  cases hh : p.hidden <;> cases hr : p.reverse <;>
    simp [draw, keyInput, hh, hr]

/-- Witness for C5 at the fresh state and at the fresh state with `hidden`
toggled on. -/
theorem hidden_reverse_panes_witness :
    ((draw initProgram).showLeft = true ∧ (draw initProgram).showRight = true)
    ∧ (((draw { initProgram with hidden := true }).showLeft = true
          ∧ (draw { initProgram with hidden := true }).showRight = false)
        ∨ ((draw { initProgram with hidden := true }).showLeft = false
          ∧ (draw { initProgram with hidden := true }).showRight = true))
    ∧ ((draw (keyInput { initProgram with hidden := true }
            (KeyCode.char 'r'))).showLeft
          = !(draw { initProgram with hidden := true }).showLeft
        ∧ (draw (keyInput { initProgram with hidden := true }
            (KeyCode.char 'r'))).showRight
          = !(draw { initProgram with hidden := true }).showRight) :=
  ⟨(hidden_reverse_panes initProgram).1 rfl,
   (hidden_reverse_panes { initProgram with hidden := true }).2.1 rfl,
   (hidden_reverse_panes { initProgram with hidden := true }).2.2 rfl⟩

/-- **C6** (amended): `scroll_up` is idempotent at the top boundary for every
amount; `scroll_down` at the bottom clamp `scroll = length - 1` is idempotent
for every amount ≥ 2 (absent `u16` overflow); but for amount 1 the boundary is
not a fixed point: the code's strict `>` lets `scroll` step to `length` and
the next call returns it to `length - 1` (a two-cycle, unchanged only after
every second call). -/
theorem boundary_idempotence (p : Program) (a : Nat) :
    (p.scroll = 0 → (scrollUp p a).scroll = 0)
    ∧ (p.scroll = p.length - 1 → 1 ≤ p.length → 2 ≤ a →
        p.length - 1 + a < U16MOD → scrollDown p a = p)
    ∧ (p.scroll = p.length - 1 → 1 ≤ p.length → p.length + 1 < U16MOD →
        (scrollDown p 1).scroll = p.length
        ∧ (scrollDown (scrollDown p 1) 1).scroll = p.length - 1) := by
  refine ⟨?_, ?_, ?_⟩
  · intro h0
    unfold scrollUp
    split <;> simp [h0]
  · intro hb h1 ha hov
    have hcond : wadd p.scroll a > p.length := by
      simp only [wadd, U16MOD] at hov ⊢
      omega
    unfold scrollDown
    rw [if_pos hcond]
    have hv : wsub p.length 1 = p.scroll := by
      rw [wsub_one_eq p.length h1 (by simp only [U16MOD] at hov ⊢; omega)]
      omega
    rw [hv]
  · intro hb h1 hov
    have hc1 : ¬(wadd p.scroll 1 > p.length) := by
      simp only [wadd, U16MOD] at hov ⊢
      omega
    have hs1 : (scrollDown p 1).scroll = p.length := by
      rw [scrollDown_scroll_of_le p 1 hc1]
      simp only [wadd, U16MOD] at hov ⊢
      omega
    refine ⟨hs1, ?_⟩
    have hl1 : (scrollDown p 1).length = p.length := scrollDown_length p 1
    have hc2 : wadd (scrollDown p 1).scroll 1 > (scrollDown p 1).length := by
      rw [hs1, hl1]
      simp only [wadd, U16MOD] at hov ⊢
      omega
    rw [scrollDown_scroll_of_gt (scrollDown p 1) 1 hc2, hl1,
        wsub_one_eq p.length h1 (by simp only [U16MOD] at hov ⊢; omega)]

/-- Counterexample to C6 as stated: with `line_count = 3` and
`scroll_offset = 2 = line_count - 1` (the bottom clamp), a further
`scroll_down(1)` changes `scroll_offset` to 3. -/
theorem boundary_idempotence_cex :
    ({ initProgram with length := 3, scroll := 2 } : Program).scroll
      = ({ initProgram with length := 3, scroll := 2 } : Program).length - 1
    ∧ (scrollDown { initProgram with length := 3, scroll := 2 } 1).scroll = 3
    ∧ (scrollDown { initProgram with length := 3, scroll := 2 } 1).scroll
        ≠ 2 := by decide

/-- Witness for C6 (amended) at `line_count = 1`, `scroll_offset = 0` (which
is both boundaries), amount 2. -/
theorem boundary_idempotence_witness :
    (scrollUp { initProgram with length := 1 } 2).scroll = 0
    ∧ scrollDown { initProgram with length := 1 } 2
        = { initProgram with length := 1 }
    ∧ (scrollDown { initProgram with length := 1 } 1).scroll
        = ({ initProgram with length := 1 } : Program).length
    ∧ (scrollDown (scrollDown { initProgram with length := 1 } 1) 1).scroll
        = ({ initProgram with length := 1 } : Program).length - 1 := by
  have h := boundary_idempotence { initProgram with length := 1 } 2
  exact ⟨h.1 (by decide), h.2.1 (by decide) (by decide) (by decide) (by decide),
         (h.2.2 (by decide) (by decide) (by decide)).1,
         (h.2.2 (by decide) (by decide) (by decide)).2⟩

/-- **C7.** Scenario A: splitting `"日:\n day, sun\n-\nニチ\n"` yields a
prompt side whose lines are `["日:", "", "-", ""]`, a detail side whose lines
are `["", " day, sun", "", "ニチ"]`, and a line count of 4. -/
theorem scenarioA_split :
    rustLines (buildSide leftKeep "日:\n day, sun\n-\nニチ\n")
      = ["日:", "", "-", ""]
    ∧ rustLines (buildSide rightKeep "日:\n day, sun\n-\nニチ\n")
      = ["", " day, sun", "", "ニチ"]
    ∧ lineCount "日:\n day, sun\n-\nニチ\n" = 4 := by decide

/-- **C8.** Scenario B: from a fresh state with `line_count = 3`, ten calls of
`scroll_down(1)` leave `scroll_offset = 2`. -/
theorem scenarioB_scroll :
    (applyCalls { initProgram with length := 3 }
        (List.replicate 10 (ScrollCall.down 1))).scroll = 2 := by decide

/-- **C9.** Escape sets `leave`; no subsequent event ever clears it; and once
it holds the run loop returns at once, processing no further events. -/
theorem escape_exit_absorbing (p : Program) (e : Event) (es : List Event) :
    (keyInput p KeyCode.esc).leave = true
    ∧ (p.leave = true → (applyEvent p e).leave = true)
    ∧ (p.leave = true → runEvents p es = p) := by
  refine ⟨rfl, ?_, ?_⟩
  · intro h
    cases e with
    | key k => exact keyInput_leave_mono p k h
    | mouse m => exact mouseInput_leave_mono p m h
    | otherEvent => exact h
  · intro h
    cases es with
    | nil => rfl
    | cons e es => simp [runEvents, h]

/-- Witness for C9 at a state with `leave` already set and a pending event. -/
theorem escape_exit_absorbing_witness :
    (keyInput { initProgram with leave := true } KeyCode.esc).leave = true
    ∧ (applyEvent { initProgram with leave := true } Event.otherEvent).leave
        = true
    ∧ runEvents { initProgram with leave := true } [Event.otherEvent]
        = { initProgram with leave := true } := by
  have h := escape_exit_absorbing { initProgram with leave := true }
    Event.otherEvent [Event.otherEvent]
  exact ⟨h.1, h.2.1 rfl, h.2.2 rfl⟩

/-- **C10.** When the file read fails, `update_file` returns the error and
every field of the program — `left_side`, `right_side`, `length`, `scroll`,
`hidden`, `reverse`, `space`, `leave` — keeps its prior value: the fields are
assigned only after all I/O has succeeded. -/
theorem updateFile_error_unchanged (p : Program) (e : UpdateError) :
    (updateFile p (Except.error e)).1 = p
    ∧ (updateFile p (Except.error e)).1.left_side = p.left_side
    ∧ (updateFile p (Except.error e)).1.right_side = p.right_side
    ∧ (updateFile p (Except.error e)).1.length = p.length
    ∧ (updateFile p (Except.error e)).1.scroll = p.scroll
    ∧ (updateFile p (Except.error e)).1.hidden = p.hidden
    ∧ (updateFile p (Except.error e)).1.reverse = p.reverse
    ∧ (updateFile p (Except.error e)).1.space = p.space
    ∧ (updateFile p (Except.error e)).1.leave = p.leave
    ∧ (updateFile p (Except.error e)).2 = Except.error e :=
  ⟨rfl, rfl, rfl, rfl, rfl, rfl, rfl, rfl, rfl, rfl⟩

end Kanjitest
